import Mathlib

/-!
Verification development for the MurmurationSim generative-geometry pipeline.

The JavaScript source is shallowly embedded over `ℚ` (idealized real
arithmetic).  Transcendental operations that JavaScript takes from `Math`
(`sqrt`, `cbrt`, `sin`, `cos`, `atan2`, `pow`, and the constant `PI`) are
abstracted into an `Ops` record that every embedded function takes as a
parameter; all remaining arithmetic (including `Math.floor`, `Math.ceil`,
`Math.round`, 32-bit integer operations and the simplex-noise kernel) is
exact and fully computable.  The process-wide noise permutation table and
the mulberry32 PRNG cursors are threaded explicitly as state.
-/

namespace Murmuration

/-- Abstracted `Math` operations.  The embedding is parametric in these; any
instantiation (in particular the real-valued one) satisfies the theorems
below. -/
structure Ops where
  sqrt : ℚ → ℚ
  cbrt : ℚ → ℚ
  sin : ℚ → ℚ
  cos : ℚ → ℚ
  atan2 : ℚ → ℚ → ℚ
  opow : ℚ → ℚ → ℚ
  pi : ℚ

/-- `{x, y, z}` value from the source (vec3.js / Point3 of the data model). -/
structure Point3 where
  x : ℚ
  y : ℚ
  z : ℚ
deriving DecidableEq, Repr

/-- The 2^32 modulus used by all JavaScript 32-bit coercions. -/
def two32 : ℕ := 4294967296

/-- One step of the mulberry32 PRNG (generate.js lines 10-17 and the copy in
noise.js seed()).  The state is the 32-bit pattern of the JS variable `a`;
the returned rational is `((t ^ t >>> 14) >>> 0) / 4294967296`. -/
def m32 (a : ℕ) : ℚ × ℕ :=
  let a1 : ℕ := (a + 0x6D2B79F5) % two32
  let t1 : ℕ := (Nat.xor a1 (a1 >>> 15) * (Nat.lor 1 a1)) % two32
  let t2 : ℕ := Nat.xor ((t1 + (Nat.xor t1 (t1 >>> 7) * Nat.lor 61 t1) % two32) % two32) t1
  let out : ℕ := Nat.xor t2 (t2 >>> 14)
  ((out : ℚ) / (two32 : ℚ), a1)

/-- JS `a |= 0` applied to an integer seed: the 32-bit pattern of `ToInt32`. -/
def m32init (s : ℤ) : ℕ := (s % (two32 : ℤ)).toNat

/-- Draw `n` values from the PRNG (helper for sequential `rng()` calls). -/
def m32draw2 (st : ℕ) : ℚ × ℚ × ℕ :=
  let (r1, st1) := m32 st
  let (r2, st2) := m32 st1
  (r1, r2, st2)

/-- One downward Fisher–Yates step sequence: for `i` from 255 down to 1 swap
`p[i]` with `p[j]`, `j = Math.floor(rng() * (i + 1))` (noise.js lines 36-39).
`Math.floor(rng() * (i+1))` is exact: the double `pat/2^32 * (i+1)` carries at
most 40 significant bits, so the floor is `pat * (i+1) / 2^32` in `ℕ`. -/
def fisherYatesAux (st : ℕ) (p : List ℕ) : ℕ → List ℕ × ℕ
  | 0 => (p, st)
  | i + 1 =>
    let (r, st1) := m32 st
    let pat : ℕ := (r * (two32 : ℚ)).num.toNat
    let j : ℕ := pat * (i + 2) / two32
    let pi := p.getD (i + 1) 0
    let pj := p.getD j 0
    let p1 := (p.set (i + 1) pj).set j pi
    fisherYatesAux st1 p1 i

/-- noise.js `seed(s)`: build the 256-entry permutation table by a seeded
Fisher–Yates shuffle of `[0, …, 255]`.  The doubled 512-entry table of the
source is recovered by reading through `permAt` (index mod 256), which agrees
with `perm[i] = p[i & 255]` on every index the source ever uses (< 512). -/
def permOfSeed (s : ℤ) : List ℕ :=
  (fisherYatesAux (m32init s) (List.range 256) 255).1

/-- Read the doubled permutation table at an index (valid for all `i`). -/
def permAt (p : List ℕ) (i : ℕ) : ℕ := p.getD (i % 256) 0

/-- grad3 gradient table (noise.js lines 9-13). -/
def grad3 : List (ℤ × ℤ × ℤ) :=
  [(1,1,0), (-1,1,0), (1,-1,0), (-1,-1,0),
   (1,0,1), (-1,0,1), (1,0,-1), (-1,0,-1),
   (0,1,1), (0,-1,1), (0,1,-1), (0,-1,-1)]

/-- `dot3` (noise.js lines 55-57). -/
def dot3 (g : ℤ × ℤ × ℤ) (x y z : ℚ) : ℚ :=
  (g.1 : ℚ) * x + (g.2.1 : ℚ) * y + (g.2.2 : ℚ) * z

/-- One corner contribution of the simplex kernel: weight `(0.6 − r²)⁴`
(squared twice in the source), gated to zero when negative. -/
def simplexCorner (g : ℤ × ℤ × ℤ) (x y z : ℚ) : ℚ :=
  let t := (0.6 : ℚ) - x * x - y * y - z * z
  if t < 0 then 0 else (t * t) * (t * t) * dot3 g x y z

/-- noise.js `simplex3(xin, yin, zin)` with the permutation table passed
explicitly (the source reads it from module state).  Exact over `ℚ`. -/
def simplex3 (p : List ℕ) (xin yin zin : ℚ) : ℚ :=
  let F3 : ℚ := 1 / 3
  let G3 : ℚ := 1 / 6
  let s := (xin + yin + zin) * F3
  let i : ℤ := ⌊xin + s⌋
  let j : ℤ := ⌊yin + s⌋
  let k : ℤ := ⌊zin + s⌋
  let t := ((i + j + k : ℤ) : ℚ) * G3
  let x0 := xin - ((i : ℚ) - t)
  let y0 := yin - ((j : ℚ) - t)
  let z0 := zin - ((k : ℚ) - t)
  let c : (ℕ × ℕ × ℕ) × (ℕ × ℕ × ℕ) :=
    if x0 ≥ y0 then
      if y0 ≥ z0 then ((1,0,0), (1,1,0))
      else if x0 ≥ z0 then ((1,0,0), (1,0,1))
      else ((0,0,1), (1,0,1))
    else
      if y0 < z0 then ((0,0,1), (0,1,1))
      else if x0 < z0 then ((0,1,0), (0,1,1))
      else ((0,1,0), (1,1,0))
  let i1 := c.1.1; let j1 := c.1.2.1; let k1 := c.1.2.2
  let i2 := c.2.1; let j2 := c.2.2.1; let k2 := c.2.2.2
  let x1 := x0 - (i1 : ℚ) + G3
  let y1 := y0 - (j1 : ℚ) + G3
  let z1 := z0 - (k1 : ℚ) + G3
  let x2 := x0 - (i2 : ℚ) + 2 * G3
  let y2 := y0 - (j2 : ℚ) + 2 * G3
  let z2 := z0 - (k2 : ℚ) + 2 * G3
  let x3 := x0 - 1 + 3 * G3
  let y3 := y0 - 1 + 3 * G3
  let z3 := z0 - 1 + 3 * G3
  let ii : ℕ := (i % 256).toNat
  let jj : ℕ := (j % 256).toNat
  let kk : ℕ := (k % 256).toNat
  let gi0 := permAt p (ii + permAt p (jj + permAt p kk)) % 12
  let gi1 := permAt p (ii + i1 + permAt p (jj + j1 + permAt p (kk + k1))) % 12
  let gi2 := permAt p (ii + i2 + permAt p (jj + j2 + permAt p (kk + k2))) % 12
  let gi3 := permAt p (ii + 1 + permAt p (jj + 1 + permAt p (kk + 1))) % 12
  let n0 := simplexCorner (grad3.getD gi0 (0,0,0)) x0 y0 z0
  let n1 := simplexCorner (grad3.getD gi1 (0,0,0)) x1 y1 z1
  let n2 := simplexCorner (grad3.getD gi2 (0,0,0)) x2 y2 z2
  let n3 := simplexCorner (grad3.getD gi3 (0,0,0)) x3 y3 z3
  32 * (n0 + n1 + n2 + n3)

/-- Options bundle of `fbm3` with the source's default values. -/
structure FbmOpts where
  octaves : ℕ := 4
  persistence : ℚ := 0.5
  lacunarity : ℚ := 2.0
  frequency : ℚ := 1.0
  amplitude : ℚ := 1.0
deriving DecidableEq, Repr

/-- Accumulation loop of `fbm3` (noise.js lines 154-159): returns the
`(value, maxAmp)` pair after the given number of octaves. -/
def fbm3Loop (p : List ℕ) (x y z : ℚ) (persistence lacunarity : ℚ) :
    ℕ → ℚ → ℚ → ℚ × ℚ
  | 0, _, _ => (0, 0)
  | n + 1, amp, freq =>
    let v := simplex3 p (x * freq) (y * freq) (z * freq) * amp
    let (rest, restAmp) := fbm3Loop p x y z persistence lacunarity n (amp * persistence) (freq * lacunarity)
    (v + rest, amp + restAmp)

/-- noise.js `fbm3`.  Division by zero total weight (octaves = 0) is `ℚ`'s
`0`; the source never calls it with zero octaves. -/
def fbm3 (p : List ℕ) (x y z : ℚ) (o : FbmOpts) : ℚ :=
  let (value, maxAmp) := fbm3Loop p x y z o.persistence o.lacunarity o.octaves o.amplitude o.frequency
  value / maxAmp

/-- noise.js `fbm3vec`: three decorrelated channels via fixed offsets. -/
def fbm3vec (p : List ℕ) (x y z : ℚ) (o : FbmOpts) : Point3 :=
  { x := fbm3 p x y z o
    y := fbm3 p (x + 31.416) (y + 47.853) (z + 12.679) o
    z := fbm3 p (x + 74.205) (y + 13.842) (z + 56.917) o }

/-- noise.js `curl3` (lines 180-204), translated clause by clause. -/
def curl3 (p : List ℕ) (x y z : ℚ) (o : FbmOpts) : Point3 :=
  let eps : ℚ := 0.001
  let OX : ℚ := 31.416; let OY : ℚ := 47.853; let OZ : ℚ := 12.679
  let PX : ℚ := 74.205; let PY : ℚ := 13.842; let PZ : ℚ := 56.917
  let dNzdy := (fbm3 p (x + PX) ((y + eps) + PY) (z + PZ) o -
                fbm3 p (x + PX) ((y - eps) + PY) (z + PZ) o) / (2 * eps)
  let dNydz := (fbm3 p (x + OX) (y + OY) ((z + eps) + OZ) o -
                fbm3 p (x + OX) (y + OY) ((z - eps) + OZ) o) / (2 * eps)
  let dNxdz := (fbm3 p x y (z + eps) o - fbm3 p x y (z - eps) o) / (2 * eps)
  let dNzdx := (fbm3 p ((x + eps) + PX) (y + PY) (z + PZ) o -
                fbm3 p ((x - eps) + PX) (y + PY) (z + PZ) o) / (2 * eps)
  let dNydx := (fbm3 p ((x + eps) + OX) (y + OY) (z + OZ) o -
                fbm3 p ((x - eps) + OX) (y + OY) (z + OZ) o) / (2 * eps)
  let dNxdy := (fbm3 p x (y + eps) z o - fbm3 p x (y - eps) z o) / (2 * eps)
  { x := dNzdy - dNydz, y := dNxdz - dNzdx, z := dNydx - dNxdy }

/-! ## Configuration bundle (main.js params object) -/

/-- Axis selector.  The source passes strings; any string other than
`'x'`/`'y'` selects the `z` branch of every helper, so three values suffice. -/
inductive Axis | x | y | z
deriving DecidableEq, Repr

/-- Fill mode of the shape sampler. -/
inductive FillMode | surface | volume
deriving DecidableEq, Repr

/-- Shape kind.  Strings other than the four known kinds take the `default`
branch of `generateSingleCloud`, which is the ellipsoid, so four values
suffice. -/
inductive ShapeType | ellipsoid | sphere | torus | swept
deriving DecidableEq, Repr

/-- Projection kind (`projType`): the source compares against the string
`'perspective'`; anything else is orthographic. -/
inductive ProjType | ortho | perspective
deriving DecidableEq, Repr

/-- The flat parameter bundle shared by every pipeline stage (main.js lines
26-113), restricted to the fields the embedded core reads. -/
structure Params where
  shapeType : ShapeType := .ellipsoid
  count : ℕ := 800
  radiusX : ℚ := 40
  radiusY : ℚ := 30
  radiusZ : ℚ := 100
  torusMajor : ℚ := 60
  torusMinor : ℚ := 20
  sweptRadius : ℚ := 15
  fillMode : FillMode := .surface
  seed : ℤ := 42
  densityFalloff : ℚ := 2.0
  densityNoise : ℚ := 0.3
  densityNoiseFreq : ℚ := 0.02
  subFlocks : ℕ := 1
  subFlockSpread : ℚ := 0.6
  subFlockSizeVar : ℚ := 0.3
  subFlockBridge : ℚ := 0.15
  noiseFreq : ℚ := 0.02
  noiseAmp : ℚ := 20
  noiseOctaves : ℕ := 4
  noisePersistence : ℚ := 0.5
  noiseLacunarity : ℚ := 2.0
  noiseOffsetX : ℚ := 0
  noiseOffsetY : ℚ := 0
  noiseOffsetZ : ℚ := 0
  smoothEnabled : Bool := false
  smoothFreq : ℚ := 0.005
  smoothAmp : ℚ := 30
  twistEnabled : Bool := false
  twistAmount : ℚ := 0.5
  twistAxis : Axis := .z
  taperEnabled : Bool := false
  taperStart : ℚ := 1.0
  taperEnd : ℚ := 0.3
  taperAxis : Axis := .z
  bendEnabled : Bool := false
  bendAngle : ℚ := 0.5
  bendAxis : Axis := .x
  waveEnabled : Bool := false
  waveFreq : ℚ := 0.05
  waveAmp : ℚ := 10
  waveAxis : Axis := .z
  wavePhase : ℚ := 0
  camRotX : ℚ := 0.3
  camRotY : ℚ := 0.5
  camRotZ : ℚ := 0
  camZoom : ℚ := 2.5
  projType : ProjType := .ortho
  camFOV : ℚ := 400
  birdScale : ℚ := 1.0
  depthScale : ℚ := 0.5
  orientToFlow : Bool := true
  orientJitter : ℚ := 0.2
  curlFlowFreq : ℚ := 0.015
  curlFlowOctaves : ℕ := 2
  poseVariation : Bool := true
  poseNoiseFreq : ℚ := 0.01
  depthOpacity : ℚ := 0.3
  depthOpacityCurve : ℚ := 1.0
  darkBandEnabled : Bool := true
  darkBandGridSize : ℚ := 20
  width : ℚ := 800
  height : ℚ := 600

/-! ## Deformer stack (deformers.js) -/

/-- Options of `noiseDisplace`. -/
structure DisplaceOpts where
  frequency : ℚ
  amplitude : ℚ
  octaves : ℕ
  persistence : ℚ
  lacunarity : ℚ
  offsetX : ℚ
  offsetY : ℚ
  offsetZ : ℚ
deriving DecidableEq, Repr

/-- deformers.js `noiseDisplace`: displace each point by `fbm3vec` sampled at
the frequency-scaled, offset coordinates. -/
def noiseDisplace (p : List ℕ) (points : List Point3) (o : DisplaceOpts) : List Point3 :=
  points.map fun q =>
    let nx := q.x * o.frequency + o.offsetX
    let ny := q.y * o.frequency + o.offsetY
    let nz := q.z * o.frequency + o.offsetZ
    let disp := fbm3vec p nx ny nz
      { octaves := o.octaves, persistence := o.persistence,
        lacunarity := o.lacunarity, frequency := 1, amplitude := 1 }
    { x := q.x + disp.x * o.amplitude
      y := q.y + disp.y * o.amplitude
      z := q.z + disp.z * o.amplitude }

/-- `axisHelpers(...).getAxisVal`. -/
def getAxisVal (axis : Axis) (q : Point3) : ℚ :=
  match axis with
  | .x => q.x
  | .y => q.y
  | .z => q.z

/-- `axisHelpers(...).getBounds`: min/max of the axis coordinate.  The source
initializes with `±Infinity`; on an empty cloud the bounds are never read (the
deformers map over the empty list), so the base value of the fold is
immaterial and we use the head of the list. -/
def getBounds (axis : Axis) (points : List Point3) : ℚ × ℚ :=
  match points with
  | [] => (0, 0)
  | q :: rest =>
    (rest.foldl (fun m r => min m (getAxisVal axis r)) (getAxisVal axis q),
     rest.foldl (fun m r => max m (getAxisVal axis r)) (getAxisVal axis q))

/-- `axisHelpers(...).setFromRotation`: rotate the off-axis components. -/
def setFromRotation (ops : Ops) (q : Point3) (angle : ℚ) (ax : Axis) : Point3 :=
  let c := ops.cos angle
  let s := ops.sin angle
  match ax with
  | .x => { x := q.x, y := q.y * c - q.z * s, z := q.y * s + q.z * c }
  | .y => { x := q.x * c + q.z * s, y := q.y, z := -q.x * s + q.z * c }
  | .z => { x := q.x * c - q.y * s, y := q.x * s + q.y * c, z := q.z }

/-- `scalePerp`: scale the two off-axis components. -/
def scalePerp (q : Point3) (s : ℚ) (axis : Axis) : Point3 :=
  match axis with
  | .x => { x := q.x, y := q.y * s, z := q.z * s }
  | .y => { x := q.x * s, y := q.y, z := q.z * s }
  | .z => { x := q.x * s, y := q.y * s, z := q.z }

/-- `getPerpComponents`. -/
def getPerpComponents (q : Point3) (axis : Axis) : ℚ × ℚ :=
  match axis with
  | .x => (q.z, q.y)
  | .y => (q.z, q.x)
  | .z => (q.y, q.x)

/-- JS `v || d` for numbers: the fallback fires exactly on `0` (`NaN` has no
`ℚ` counterpart). -/
def orDefault (v d : ℚ) : ℚ := if v = 0 then d else v

/-- deformers.js `twist`. -/
def twist (ops : Ops) (points : List Point3) (amount : ℚ) (axis : Axis) : List Point3 :=
  let bounds := getBounds axis points
  points.map fun q =>
    let t := (getAxisVal axis q - bounds.1) / orDefault (bounds.2 - bounds.1) 1
    let angle := (t - 0.5) * amount * ops.pi * 2
    setFromRotation ops q angle axis

/-- deformers.js `taper`. -/
def taper (points : List Point3) (startScale endScale : ℚ) (axis : Axis) : List Point3 :=
  let bounds := getBounds axis points
  points.map fun q =>
    let t := (getAxisVal axis q - bounds.1) / orDefault (bounds.2 - bounds.1) 1
    let s := startScale + (endScale - startScale) * t
    scalePerp q s axis

/-- deformers.js `bend` (lines 325-362): the near-zero-angle guard returns a
copy of the input (`points.slice()`); otherwise points are remapped onto an
arc of radius `len / angle`. -/
def bend (ops : Ops) (points : List Point3) (angle : ℚ) (axis : Axis) : List Point3 :=
  let bounds := getBounds axis points
  let len := orDefault (bounds.2 - bounds.1) 1
  if |angle| < 0.001 then points
  else
    let radius := len / angle
    points.map fun q =>
      let axisPos := getAxisVal axis q
      let t := (axisPos - bounds.1) / len
      let theta := (t - 0.5) * angle
      let perp := getPerpComponents q axis
      match axis with
      | .x =>
        { x := (radius + perp.1) * ops.sin theta + bounds.1 + len * 0.5
          y := q.y
          z := (radius + perp.1) * ops.cos theta - radius }
      | .y =>
        { x := q.x
          y := (radius + perp.1) * ops.sin theta + bounds.1 + len * 0.5
          z := (radius + perp.1) * ops.cos theta - radius }
      | .z =>
        { x := q.x
          y := (radius + perp.1) * ops.sin theta
          z := (radius + perp.1) * ops.cos theta - radius + bounds.1 + len * 0.5 }

/-- deformers.js `wave`. -/
def wave (ops : Ops) (points : List Point3) (freq amp : ℚ) (axis : Axis) (phase : ℚ) : List Point3 :=
  points.map fun q =>
    let axisVal := getAxisVal axis q
    let displacement := amp * ops.sin (axisVal * freq + phase)
    match axis with
    | .x => { x := q.x, y := q.y + displacement, z := q.z }
    | .y => { x := q.x + displacement, y := q.y, z := q.z }
    | .z => { x := q.x, y := q.y + displacement, z := q.z }

/-- deformers.js `applyDeformers`: reseed the global noise table from
`params.seed`, then run the enabled stages in the fixed order.  Returns the
deformed cloud together with the permutation table that is left in the
process-wide noise state. -/
def applyDeformers (ops : Ops) (points : List Point3) (p : Params) :
    List Point3 × List ℕ :=
  let perm := permOfSeed p.seed
  let pts0 := points
  let pts1 :=
    if p.smoothEnabled ∧ p.smoothAmp > 0 then
      noiseDisplace perm pts0
        { frequency := p.smoothFreq, amplitude := p.smoothAmp, octaves := 1,
          persistence := 0.5, lacunarity := 2.0,
          offsetX := p.noiseOffsetX + 200, offsetY := p.noiseOffsetY + 200,
          offsetZ := p.noiseOffsetZ + 200 }
    else pts0
  let pts2 :=
    if p.noiseAmp > 0 then
      noiseDisplace perm pts1
        { frequency := p.noiseFreq, amplitude := p.noiseAmp, octaves := p.noiseOctaves,
          persistence := p.noisePersistence, lacunarity := p.noiseLacunarity,
          offsetX := p.noiseOffsetX, offsetY := p.noiseOffsetY, offsetZ := p.noiseOffsetZ }
    else pts1
  let pts3 := if p.twistEnabled then twist ops pts2 p.twistAmount p.twistAxis else pts2
  let pts4 := if p.taperEnabled then taper pts3 p.taperStart p.taperEnd p.taperAxis else pts3
  let pts5 := if p.bendEnabled then bend ops pts4 p.bendAngle p.bendAxis else pts4
  let pts6 := if p.waveEnabled then wave ops pts5 p.waveFreq p.waveAmp p.waveAxis p.wavePhase else pts5
  (pts6, perm)

/-! ## Shape sampler (generate.js) -/

/-- The probability computed by `densityAcceptance` on its non-early path
(generate.js lines 180-192). -/
def densityProb (ops : Ops) (perm : List ℕ) (q : Point3) (distFromCenter : ℚ)
    (fillMode : FillMode) (dp : Params) : ℚ :=
  let prob : ℚ := 1.0
  let prob :=
    if fillMode = .volume ∧ dp.densityFalloff > 0 ∧ distFromCenter ≥ 0 then
      prob * ops.opow (max 0 (1 - distFromCenter)) dp.densityFalloff
    else prob
  let prob :=
    if dp.densityNoise > 0 ∧ dp.densityNoiseFreq > 0 then
      let nval := simplex3 perm (q.x * dp.densityNoiseFreq) (q.y * dp.densityNoiseFreq)
        (q.z * dp.densityNoiseFreq)
      prob * (1.0 - dp.densityNoise + dp.densityNoise * (0.5 + 0.5 * nval))
    else prob
  prob

/-- generate.js `densityAcceptance` (lines 172-195) with the PRNG state
threaded: the early path (`densityFalloff ≤ 0` and `densityNoise ≤ 0`)
returns `true` without consuming a draw; otherwise one uniform draw is
compared against the probability. -/
def densityAcceptance (ops : Ops) (perm : List ℕ) (q : Point3) (distFromCenter : ℚ)
    (fillMode : FillMode) (dp : Params) (st : ℕ) : Bool × ℕ :=
  if dp.densityFalloff ≤ 0 ∧ dp.densityNoise ≤ 0 then (true, st)
  else
    let prob := densityProb ops perm q distFromCenter fillMode dp
    let (r, st1) := m32 st
    (decide (r < prob), st1)

/-- The Marsaglia `do … while` pair-rejection loop of `generateEllipsoid`
(lines 211-215).  The source leaves this inner loop unbounded; the embedding
gives it explicit fuel and `none` models divergence (never reached for the
streams the theorems instantiate). -/
def marsaglia (st : ℕ) : ℕ → Option (ℚ × ℚ × ℚ × ℕ)
  | 0 => none
  | fuel + 1 =>
    let (r1, r2, st1) := m32draw2 st
    let u := r1 * 2 - 1
    let v := r2 * 2 - 1
    let s := u * u + v * v
    if s ≥ 1 ∨ s = 0 then marsaglia st1 fuel else some (u, v, s, st1)

/-- One accepted-or-rejected trial body of `generateEllipsoid`
(the `while` body, lines 206-240). -/
def ellipsoidTrial (ops : Ops) (perm : List ℕ) (rx ry rz : ℚ) (fillMode : FillMode)
    (dp : Params) (iFuel : ℕ) (st : ℕ) : Option (Option Point3 × ℕ) :=
  match marsaglia st iFuel with
  | none => none
  | some (u, v, s, st1) =>
    let factor := 2 * ops.sqrt (1 - s)
    let nx := u * factor
    let ny := v * factor
    let nz := 1 - 2 * s
    let (r, st2) :=
      if fillMode = .volume then
        let (d, st2) := m32 st1
        (ops.cbrt d, st2)
      else ((1 : ℚ), st1)
    let q : Point3 := { x := nx * rx * r, y := ny * ry * r, z := nz * rz * r }
    let distFromCenter := if fillMode = .volume then r else 0
    let (ok, st3) := densityAcceptance ops perm q distFromCenter fillMode dp st2
    some (if ok then some q else none, st3)

/-- The attempt loop of `generateEllipsoid`: `fuel` is the remaining attempt
budget (`maxAttempts − attempts`); the loop also stops once `count` points
are collected.  Besides the points it returns the final value of the
`attempts` counter, so the trial bound can be stated. -/
def generateEllipsoidAux (ops : Ops) (perm : List ℕ) (count : ℕ) (rx ry rz : ℚ)
    (fillMode : FillMode) (dp : Params) (iFuel : ℕ) :
    ℕ → List Point3 → ℕ → ℕ → Option (List Point3 × ℕ)
  | 0, acc, attempts, _ => some (acc.reverse, attempts)
  | fuel + 1, acc, attempts, st =>
    if acc.length < count then
      match ellipsoidTrial ops perm rx ry rz fillMode dp iFuel st with
      | none => none
      | some (accepted, st1) =>
        let acc1 := match accepted with | some q => q :: acc | none => acc
        generateEllipsoidAux ops perm count rx ry rz fillMode dp iFuel fuel acc1 (attempts + 1) st1
    else some (acc.reverse, attempts)

/-- generate.js `generateEllipsoid` (lines 200-243). -/
def generateEllipsoid (ops : Ops) (perm : List ℕ) (count : ℕ) (rx ry rz : ℚ)
    (fillMode : FillMode) (seed : ℤ) (dp : Params) (iFuel : ℕ) :
    Option (List Point3 × ℕ) :=
  generateEllipsoidAux ops perm count rx ry rz fillMode dp iFuel (count * 20) [] 0 (m32init seed)

/-- generate.js `generateSphere`: equal-radius ellipsoid. -/
def generateSphere (ops : Ops) (perm : List ℕ) (count : ℕ) (radius : ℚ)
    (fillMode : FillMode) (seed : ℤ) (dp : Params) (iFuel : ℕ) :
    Option (List Point3 × ℕ) :=
  generateEllipsoid ops perm count radius radius radius fillMode seed dp iFuel

/-- The attempt loop of `generateTorus` (lines 261-285); total, since the
torus path has no inner rejection loop. -/
def generateTorusAux (ops : Ops) (perm : List ℕ) (count : ℕ) (majorR minorR : ℚ)
    (fillMode : FillMode) (dp : Params) :
    ℕ → List Point3 → ℕ → ℕ → List Point3 × ℕ
  | 0, acc, attempts, _ => (acc.reverse, attempts)
  | fuel + 1, acc, attempts, st =>
    if acc.length < count then
      let (ru, rv, st1) := m32draw2 st
      let u := ru * ops.pi * 2
      let v := rv * ops.pi * 2
      let (r, distFromCenter, st2) :=
        if fillMode = .volume then
          let (rr, st2) := m32 st1
          let rNorm := ops.sqrt rr
          (minorR * rNorm, rNorm, st2)
        else (minorR, (0 : ℚ), st1)
      let q : Point3 :=
        { x := (majorR + r * ops.cos v) * ops.cos u
          y := (majorR + r * ops.cos v) * ops.sin u
          z := r * ops.sin v }
      let (ok, st3) := densityAcceptance ops perm q distFromCenter fillMode dp st2
      let acc1 := if ok then q :: acc else acc
      generateTorusAux ops perm count majorR minorR fillMode dp fuel acc1 (attempts + 1) st3
    else (acc.reverse, attempts)

/-- generate.js `generateTorus` (lines 255-287). -/
def generateTorus (ops : Ops) (perm : List ℕ) (count : ℕ) (majorR minorR : ℚ)
    (fillMode : FillMode) (seed : ℤ) (dp : Params) : List Point3 × ℕ :=
  generateTorusAux ops perm count majorR minorR fillMode dp (count * 20) [] 0 (m32init seed)

/-- generate.js `normalizeVec`. -/
def normalizeVec (ops : Ops) (v : Point3) : Point3 :=
  let len := ops.sqrt (v.x * v.x + v.y * v.y + v.z * v.z)
  if len = 0 then { x := 0, y := 0, z := 0 }
  else { x := v.x / len, y := v.y / len, z := v.z / len }

/-- generate.js `crossVec`. -/
def crossVec (a b : Point3) : Point3 :=
  { x := a.y * b.z - a.z * b.y
    y := a.z * b.x - a.x * b.z
    z := a.x * b.y - a.y * b.x }

/-- generate.js `crInterp`: the Catmull–Rom basis polynomial. -/
def crInterp (p0 p1 p2 p3 t : ℚ) : ℚ :=
  let t2 := t * t
  let t3 := t2 * t
  0.5 * ((2 * p1) + (-p0 + p2) * t + (2 * p0 - 5 * p1 + 4 * p2 - p3) * t2 +
    (-p0 + 3 * p1 - 3 * p2 + p3) * t3)

/-- generate.js `catmullRomPoint`: indexes are clamped exactly as in the
source (`i = min(⌊t·n⌋, n−1)`, neighbours clamped to `[0, n]`). -/
def catmullRomPoint (spine : List Point3) (t : ℚ) : Point3 :=
  let n : ℤ := (spine.length : ℤ) - 1
  let f : ℚ := t * (n : ℚ)
  let i : ℤ := min ⌊f⌋ (n - 1)
  let lcl : ℚ := f - (i : ℚ)
  let idx : ℤ → Point3 := fun k => spine.getD k.toNat { x := 0, y := 0, z := 0 }
  let p0 := idx (max 0 (i - 1))
  let p1 := idx i
  let p2 := idx (min n (i + 1))
  let p3 := idx (min n (i + 2))
  { x := crInterp p0.x p1.x p2.x p3.x lcl
    y := crInterp p0.y p1.y p2.y p3.y lcl
    z := crInterp p0.z p1.z p2.z p3.z lcl }

/-- generate.js `catmullRomTangent`: finite-difference tangent. -/
def catmullRomTangent (spine : List Point3) (t : ℚ) : Point3 :=
  let eps : ℚ := 0.001
  let a := catmullRomPoint spine (max 0 (t - eps))
  let b := catmullRomPoint spine (min 1 (t + eps))
  { x := b.x - a.x, y := b.y - a.y, z := b.z - a.z }

/-- The fixed 5-control-point spine of the swept tube. -/
def sweptSpine : List Point3 :=
  [{ x := -60, y := 0, z := -80 }, { x := -30, y := 30, z := -30 },
   { x := 0, y := -20, z := 0 }, { x := 30, y := 25, z := 30 },
   { x := 60, y := -10, z := 80 }]

/-- The attempt loop of `generateSweptCurve` (lines 307-335); total. -/
def generateSweptAux (ops : Ops) (perm : List ℕ) (count : ℕ) (crossSectionR : ℚ)
    (dp : Params) : ℕ → List Point3 → ℕ → ℕ → List Point3 × ℕ
  | 0, acc, attempts, _ => (acc.reverse, attempts)
  | fuel + 1, acc, attempts, st =>
    if acc.length < count then
      let (t, st1) := m32 st
      let pos := catmullRomPoint sweptSpine t
      let tangent := catmullRomTangent sweptSpine t
      let forward := normalizeVec ops tangent
      let up : Point3 := if |forward.y| > 0.95 then { x := 1, y := 0, z := 0 }
        else { x := 0, y := 1, z := 0 }
      let right := normalizeVec ops (crossVec forward up)
      let realUp := crossVec right forward
      let (ra, st2) := m32 st1
      let angle := ra * ops.pi * 2
      let (rr, st3) := m32 st2
      let rNorm := ops.sqrt rr
      let r := crossSectionR * rNorm
      let q : Point3 :=
        { x := pos.x + r * (ops.cos angle * right.x + ops.sin angle * realUp.x)
          y := pos.y + r * (ops.cos angle * right.y + ops.sin angle * realUp.y)
          z := pos.z + r * (ops.cos angle * right.z + ops.sin angle * realUp.z) }
      let (ok, st4) := densityAcceptance ops perm q rNorm .volume dp st3
      let acc1 := if ok then q :: acc else acc
      generateSweptAux ops perm count crossSectionR dp fuel acc1 (attempts + 1) st4
    else (acc.reverse, attempts)

/-- generate.js `generateSweptCurve` (lines 292-338). -/
def generateSweptCurve (ops : Ops) (perm : List ℕ) (count : ℕ) (crossSectionR : ℚ)
    (seed : ℤ) (dp : Params) : List Point3 × ℕ :=
  generateSweptAux ops perm count crossSectionR dp (count * 20) [] 0 (m32init seed)

/-- generate.js `generateSingleCloud` (lines 152-167): dispatch on the shape
kind (the `default` branch coincides with the ellipsoid one). -/
def generateSingleCloud (ops : Ops) (perm : List ℕ) (p : Params) (iFuel : ℕ) :
    Option (List Point3) :=
  match p.shapeType with
  | .ellipsoid =>
    (generateEllipsoid ops perm p.count p.radiusX p.radiusY p.radiusZ p.fillMode p.seed p iFuel).map Prod.fst
  | .sphere =>
    (generateSphere ops perm p.count (max (max p.radiusX p.radiusY) p.radiusZ) p.fillMode p.seed p iFuel).map Prod.fst
  | .torus => some (generateTorus ops perm p.count p.torusMajor p.torusMinor p.fillMode p.seed p).1
  | .swept => some (generateSweptCurve ops perm p.count (orDefault p.sweptRadius 15) p.seed p).1

/-! ## Flock composer (generate.js generateCloud and helpers) -/

/-- The sub-flock-center loop (generate.js lines 38-45): three draws per
center. -/
def genCentersAux (maxR spread : ℚ) (st : ℕ) : ℕ → List Point3 × ℕ
  | 0 => ([], st)
  | n + 1 =>
    let (rx, st1) := m32 st
    let (ry, st2) := m32 st1
    let (rz, st3) := m32 st2
    let c : Point3 :=
      { x := (rx - 0.5) * 2 * maxR * spread
        y := (ry - 0.5) * 2 * maxR * spread
        z := (rz - 0.5) * 2 * maxR * spread }
    let (rest, st4) := genCentersAux maxR spread st3 n
    (c :: rest, st4)

/-- The weight loop of `distributeCount` for flocks `1 … n−1`. -/
def distWeightsAux (sizeVar : ℚ) (st : ℕ) : ℕ → List ℚ × ℕ
  | 0 => ([], st)
  | n + 1 =>
    let (r, st1) := m32 st
    let w := 0.3 + (1 - sizeVar) * 0.4 + r * sizeVar * 0.3
    let (rest, st2) := distWeightsAux sizeVar st1 n
    (w :: rest, st2)

/-- generate.js `distributeCount` (lines 87-95); `Math.round(x)` is
`⌊x + 1/2⌋`. -/
def distributeCount (total : ℤ) (n : ℕ) (sizeVar : ℚ) (st : ℕ) : List ℤ × ℕ :=
  let (ws, st1) := distWeightsAux sizeVar st (n - 1)
  let weights : List ℚ := 1.0 :: ws
  let sum := weights.foldl (· + ·) 0
  (weights.map fun w => ⌊(total : ℚ) * w / sum + 0.5⌋, st1)

/-- The per-point body of `generateBridgePoints` along one path, consuming
three draws (`t`, angle, radius) per point in source order. -/
def bridgePointsOnPath (ops : Ops) (tubeR : ℚ) (a b : Point3) : ℕ → ℕ → List Point3 × ℕ
  | 0, st => ([], st)
  | n + 1, st =>
    let (t, st1) := m32 st
    let px := a.x + (b.x - a.x) * t
    let py := a.y + (b.y - a.y) * t
    let pz := a.z + (b.z - a.z) * t
    let (rang, st2) := m32 st1
    let angle := rang * ops.pi * 2
    let (rr, st3) := m32 st2
    let r := tubeR * ops.sqrt rr
    let dx := b.x - a.x
    let dy := b.y - a.y
    let dz := b.z - a.z
    let len := orDefault (ops.sqrt (dx * dx + dy * dy + dz * dz)) 1
    let fwd : Point3 := { x := dx / len, y := dy / len, z := dz / len }
    let up : Point3 := if |fwd.y| > 0.95 then { x := 1, y := 0, z := 0 }
      else { x := 0, y := 1, z := 0 }
    let rgt := normalizeVec ops (crossVec fwd up)
    let realUp := crossVec rgt fwd
    let q : Point3 :=
      { x := px + r * (ops.cos angle * rgt.x + ops.sin angle * realUp.x)
        y := py + r * (ops.cos angle * rgt.y + ops.sin angle * realUp.y)
        z := pz + r * (ops.cos angle * rgt.z + ops.sin angle * realUp.z) }
    let (rest, st4) := bridgePointsOnPath ops tubeR a b n st3
    (q :: rest, st4)

/-- Fold `bridgePointsOnPath` over the path list, threading the PRNG. -/
def bridgePathsLoop (ops : Ops) (tubeR : ℚ) (perPath : ℕ) :
    List (Point3 × Point3) → ℕ → List Point3 × ℕ
  | [], st => ([], st)
  | (a, b) :: rest, st =>
    let (pts, st1) := bridgePointsOnPath ops tubeR a b perPath st
    let (more, st2) := bridgePathsLoop ops tubeR perPath rest st1
    (pts ++ more, st2)

/-- generate.js `generateBridgePoints` (lines 100-147): consecutive-center
paths, plus a closing last→first path when there are at least three
centers. -/
def generateBridgePoints (ops : Ops) (centers : List Point3) (count : ℤ)
    (tubeR : ℚ) (seed : ℤ) : List Point3 :=
  let origin : Point3 := { x := 0, y := 0, z := 0 }
  let paths : List (Point3 × Point3) :=
    (centers.zip (centers.drop 1)) ++
      (if centers.length ≥ 3 then [(centers.getLastD origin, centers.headD origin)] else [])
  let perPath : ℕ := (⌊(count : ℚ) / (paths.length : ℚ)⌋).toNat
  (bridgePathsLoop ops tubeR perPath paths (m32init seed)).1

/-- The per-sub-flock loop of `generateCloud` (lines 52-73): one shrink-factor
draw from the shared PRNG, then an independent `generateSingleCloud` with the
derived sub-parameters, then translation to the cluster center. -/
def genFlocksAux (ops : Ops) (perm : List ℕ) (p : Params) (iFuel : ℕ)
    (centers : List Point3) (counts : List ℤ) (f : ℕ) :
    ℕ → ℕ → Option (List Point3 × ℕ)
  | 0, st => some ([], st)
  | n + 1, st =>
    let (r, st1) := m32 st
    let scale := 1.0 - p.subFlockSizeVar * r * 0.5
    let subParams : Params :=
      { p with
        count := (counts.getD f 0).toNat
        radiusX := p.radiusX * scale
        radiusY := p.radiusY * scale
        radiusZ := p.radiusZ * scale
        torusMajor := p.torusMajor * scale
        torusMinor := p.torusMinor * scale
        sweptRadius := orDefault p.sweptRadius 15 * scale
        seed := p.seed + f * 1000 }
    match generateSingleCloud ops perm subParams iFuel with
    | none => none
    | some pts =>
      let c := centers.getD f { x := 0, y := 0, z := 0 }
      let pts1 := pts.map fun q => { x := q.x + c.x, y := q.y + c.y, z := q.z + c.z : Point3 }
      match genFlocksAux ops perm p iFuel centers counts (f + 1) n st1 with
      | none => none
      | some (rest, st2) => some (pts1 ++ rest, st2)

/-- generate.js `generateCloud` (lines 22-82): seed the global noise table,
then either delegate to a single sampler or compose sub-flock clusters plus
bridge points.  `none` models divergence of the unbounded Marsaglia inner
loop only. -/
def generateCloud (ops : Ops) (p : Params) (iFuel : ℕ) : Option (List Point3) :=
  let perm := permOfSeed p.seed
  if p.subFlocks ≤ 1 then generateSingleCloud ops perm p iFuel
  else
    let st0 := m32init (p.seed + 999)
    let maxR := max (max p.radiusX p.radiusY) p.radiusZ
    let (centers, st1) := genCentersAux maxR p.subFlockSpread st0 p.subFlocks
    let bridgeCount : ℤ := ⌊(p.count : ℚ) * p.subFlockBridge⌋
    let flockCount : ℤ := (p.count : ℤ) - bridgeCount
    let (counts, st2) := distributeCount flockCount p.subFlocks p.subFlockSizeVar st1
    match genFlocksAux ops perm p iFuel centers counts 0 p.subFlocks st2 with
    | none => none
    | some (flockPts, _) =>
      let allPoints :=
        if bridgeCount > 0 ∧ p.subFlocks > 1 then
          flockPts ++ generateBridgePoints ops centers bridgeCount (maxR * 0.1) (p.seed + 7777)
        else flockPts
      some allPoints

/-! ## Projection engine (projection.js, vec3.js) -/

/-- vec3.js `rotateX`. -/
def rotateX (ops : Ops) (v : Point3) (angle : ℚ) : Point3 :=
  let c := ops.cos angle
  let s := ops.sin angle
  { x := v.x, y := v.y * c - v.z * s, z := v.y * s + v.z * c }

/-- vec3.js `rotateY`. -/
def rotateY (ops : Ops) (v : Point3) (angle : ℚ) : Point3 :=
  let c := ops.cos angle
  let s := ops.sin angle
  { x := v.x * c + v.z * s, y := v.y, z := -v.x * s + v.z * c }

/-- vec3.js `rotateZ`. -/
def rotateZ (ops : Ops) (v : Point3) (angle : ℚ) : Point3 :=
  let c := ops.cos angle
  let s := ops.sin angle
  { x := v.x * c - v.y * s, y := v.x * s + v.y * c, z := v.z }

/-- Camera rotation in the fixed X→Y→Z order (projection.js lines 529-532). -/
def camRotate (ops : Ops) (p : Params) (v : Point3) : Point3 :=
  rotateZ ops (rotateY ops (rotateX ops v p.camRotX) p.camRotY) p.camRotZ

/-- projection.js `seededRandom`: the cheap sine-based hash used only for
per-index orientation jitter. -/
def seededRandom (ops : Ops) (s : ℚ) : ℚ :=
  let s1 := ops.sin (s * 12.9898 + 78.233) * 43758.5453
  s1 - ⌊s1⌋

/-- One projected primitive.  The per-point stage fills the first six fields;
`scale`, `opacity` and `localDensity` are attached by the whole-batch passes
(the JS code adds those properties to the same objects later). -/
structure Prim where
  sx : ℚ
  sy : ℚ
  depth : ℚ
  angle : ℚ
  perspScale : ℚ
  poseIndex : ℕ
  scale : ℚ := 0
  opacity : ℚ := 0
  localDensity : ℚ := 0
deriving DecidableEq, Repr

/-- The pose-index selection (projection.js lines 564-573): threshold the
`[0,1]`-remapped `simplex3` sample at the world position. -/
def poseIndexAt (perm : List ℕ) (p : Params) (pt : Point3) : ℕ :=
  if p.poseVariation ∧ p.poseNoiseFreq > 0 then
    let poseNoise := simplex3 perm (pt.x * p.poseNoiseFreq) (pt.y * p.poseNoiseFreq)
      (pt.z * p.poseNoiseFreq)
    let poseVal := (poseNoise + 1) * 0.5
    if poseVal < 0.35 then 0
    else if poseVal < 0.55 then 1
    else if poseVal < 0.75 then 2
    else 3
  else 0

/-- The per-point body of `projectScene` (lines 515-583) for input index `i`:
`none` exactly when a perspective point falls behind the near plane. -/
def projectPoint (ops : Ops) (perm : List ℕ) (p : Params) (i : ℕ) (pt : Point3) :
    Option Prim :=
  let camDist : ℚ := 300
  let cx := p.width / 2
  let cy := p.height / 2
  let flowFreq := orDefault p.curlFlowFreq (orDefault p.noiseFreq 0.015)
  let curlVec : Option Point3 :=
    if p.orientToFlow ∧ flowFreq > 0 then
      some (curl3 perm (pt.x * flowFreq) (pt.y * flowFreq) (pt.z * flowFreq)
        { octaves := if p.curlFlowOctaves = 0 then 2 else p.curlFlowOctaves, frequency := 1 })
    else none
  let v := camRotate ops p pt
  let angle0 : ℚ :=
    match curlVec with
    | some cv => let rv := camRotate ops p cv; ops.atan2 rv.y rv.x
    | none => 0
  let angle :=
    if p.orientJitter > 0 then
      angle0 + (seededRandom ops ((p.seed : ℚ) + (i : ℚ) * 7) - 0.5) * p.orientJitter * ops.pi * 2
    else angle0
  match p.projType with
  | .perspective =>
    let d := v.z + camDist
    if d ≤ 0.1 then none
    else
      let perspScale := p.camFOV / d
      some { sx := v.x * perspScale + cx, sy := v.y * perspScale + cy,
             depth := v.z, angle := angle, perspScale := perspScale,
             poseIndex := poseIndexAt perm p pt }
  | .ortho =>
    some { sx := v.x * p.camZoom + cx, sy := v.y * p.camZoom + cy,
           depth := v.z, angle := angle, perspScale := 1,
           poseIndex := poseIndexAt perm p pt }

/-- The gathered per-point output (the `birds` array before the whole-batch
passes). -/
def projectBirds (ops : Ops) (perm : List ℕ) (p : Params) (cloud : List Point3) :
    List Prim :=
  cloud.enum.filterMap fun iq => projectPoint ops perm p iq.1 iq.2

/-- Minimum of a list of rationals (the `minZ` scan; the list is non-empty at
every use site thanks to the early return on an empty batch). -/
def listMinQ : List ℚ → ℚ
  | [] => 0
  | h :: t => t.foldl min h

/-- Maximum of a list of rationals (the `maxZ` scan). -/
def listMaxQ : List ℚ → ℚ
  | [] => 0
  | h :: t => t.foldl max h

/-- The per-bird body of the scale/opacity pass, given the batch depth
bounds. -/
def scaleOpacityOf (ops : Ops) (p : Params) (minZ zRange : ℚ) (b : Prim) : Prim :=
  let normDepth := (b.depth - minZ) / zRange
  let scl :=
    if p.projType = .perspective then p.birdScale * b.perspScale * 0.5
    else p.birdScale * p.camZoom * 0.5 * (1 - p.depthScale * (1 - normDepth))
  let depthCurve := orDefault p.depthOpacityCurve 1.0
  let curvedDepth := ops.opow normDepth depthCurve
  { b with scale := scl, opacity := p.depthOpacity + (1 - p.depthOpacity) * curvedDepth }

/-- The depth-normalised scale/opacity pass (projection.js lines 588-611). -/
def scaleOpacityPass (ops : Ops) (p : Params) (birds : List Prim) : List Prim :=
  let minZ := listMinQ (birds.map Prim.depth)
  let maxZ := listMaxQ (birds.map Prim.depth)
  let zRange := orDefault (maxZ - minZ) 1
  birds.map (scaleOpacityOf ops p minZ zRange)

/-- The screen-space cell of a primitive for the density grid. -/
def cellOf (gs : ℚ) (b : Prim) : ℤ × ℤ := (⌊b.sx / gs⌋, ⌊b.sy / gs⌋)

/-- The value of the density grid at a cell: the imperative increment loop
(lines 620-626) leaves each in-range cell holding the number of primitives
bucketed there. -/
def gridCount (gs : ℚ) (birds : List Prim) (c r : ℤ) : ℕ :=
  (birds.filter fun b => cellOf gs b = (c, r)).length

/-- `smoothDensity` (lines 630-642): 3×3 in-bounds neighbourhood average. -/
def smoothDensity (gs : ℚ) (cols rows : ℤ) (birds : List Prim) (c r : ℤ) : ℚ :=
  let offsets : List (ℤ × ℤ) :=
    [(-1,-1), (-1,0), (-1,1), (0,-1), (0,0), (0,1), (1,-1), (1,0), (1,1)]
  let neigh := offsets.filter fun o =>
    0 ≤ r + o.1 ∧ r + o.1 < rows ∧ 0 ≤ c + o.2 ∧ c + o.2 < cols
  let sum : ℚ := (neigh.map fun o => (gridCount gs birds (c + o.2) (r + o.1) : ℚ)).sum
  sum / (neigh.length : ℚ)

/-- The per-bird body of the dark-band pass, given the finished grid data. -/
def darkBandOf (gs : ℚ) (cols rows : ℤ) (batch : List Prim) (maxDensity : ℚ)
    (b : Prim) : Prim :=
  let cr := cellOf gs b
  if 0 ≤ cr.1 ∧ cr.1 < cols ∧ 0 ≤ cr.2 ∧ cr.2 < rows then
    { b with localDensity := smoothDensity gs cols rows batch cr.1 cr.2 / maxDensity }
  else { b with localDensity := 0 }

/-- The dark-band pass (lines 614-665): assign `localDensity` from the
max-normalised smoothed grid, `0` out of bounds or when disabled. -/
def darkBandPass (p : Params) (birds : List Prim) : List Prim :=
  if p.darkBandEnabled then
    let gs := orDefault p.darkBandGridSize 20
    let cols : ℤ := ⌈p.width / gs⌉
    let rows : ℤ := ⌈p.height / gs⌉
    let cells : List (ℤ × ℤ) :=
      (List.range rows.toNat).flatMap fun r => (List.range cols.toNat).map fun c => ((c : ℤ), (r : ℤ))
    let maxDensity : ℚ :=
      cells.foldl (fun m cr => max m (smoothDensity gs cols rows birds cr.1 cr.2)) 1
    birds.map (darkBandOf gs cols rows birds maxDensity)
  else birds.map fun b => { b with localDensity := 0 }

/-- Depth comparison used by the final sort (`(a, b) => a.depth - b.depth`). -/
def depthLE (a b : Prim) : Bool := decide (a.depth ≤ b.depth)

/-- Everything `projectScene` does before the terminal sort: the per-point
pass, the early return on an empty batch, the scale/opacity pass and the
dark-band pass. -/
def projectSceneUnsorted (ops : Ops) (perm : List ℕ) (p : Params)
    (cloud : List Point3) : List Prim :=
  let birds := projectBirds ops perm p cloud
  if birds.isEmpty then [] else darkBandPass p (scaleOpacityPass ops p birds)

/-- projection.js `projectScene` (lines 498-671): the whole-batch passes
followed by the terminal ascending-depth sort (JS `Array.prototype.sort` is
stable, as is `List.mergeSort`). -/
def projectScene (ops : Ops) (perm : List ℕ) (p : Params) (cloud : List Point3) :
    List Prim :=
  (projectSceneUnsorted ops perm p cloud).mergeSort depthLE

/-! ## Full pipeline (main.js regenerate) -/

/-- main.js `regenerate` on a fully dirty state: generate the base cloud,
deform it, project it.  The incoming `noiseState` argument is the
process-wide permutation table left over from whatever ran before; the
pipeline overwrites it (both `generateCloud` and `applyDeformers` reseed
from `params.seed`) and never reads it, which is exactly what the returned
table and the determinism theorem record. -/
def runPipeline (ops : Ops) (p : Params) (iFuel : ℕ) (_noiseState : List ℕ) :
    Option (List Prim) × List ℕ :=
  match generateCloud ops p iFuel with
  | none => (none, permOfSeed p.seed)
  | some cloud =>
    let (deformed, perm) := applyDeformers ops cloud p
    (some (projectScene ops perm p deformed), perm)

/-! ## Specification-side comparison definitions -/

/-- The density-acceptance rule exactly as the specification words it
(spec §4.2): start from `p = 1`; when `densityFalloff > 0` and the fill mode
is volume, multiply by `max(0, 1 − normalizedRadialDistance)^densityFalloff`;
when `densityNoise > 0`, sample `simplex3` at the point scaled by
`densityNoiseFreq` and multiply by the value remapped from `[-1, 1]` onto a
multiplier in `[1 − densityNoise, 1]`; accept iff the uniform draw is
`< p`.  Used only to compare against the source-translated
`densityAcceptance`. -/
def densityAcceptanceSpecRule (ops : Ops) (perm : List ℕ) (q : Point3)
    (distFromCenter : ℚ) (fillMode : FillMode) (dp : Params) (draw : ℚ) : Bool :=
  let p1 : ℚ := 1
  let p2 :=
    if dp.densityFalloff > 0 ∧ fillMode = .volume then
      p1 * ops.opow (max 0 (1 - distFromCenter)) dp.densityFalloff
    else p1
  let p3 :=
    if dp.densityNoise > 0 then
      let nval := simplex3 perm (q.x * dp.densityNoiseFreq) (q.y * dp.densityNoiseFreq)
        (q.z * dp.densityNoiseFreq)
      p2 * ((1 - dp.densityNoise) + dp.densityNoise * ((nval + 1) / 2))
    else p2
  decide (draw < p3)

/-- The specification's density-acceptance rule amended minimally, as the
counterexample forces: identical to `densityAcceptanceSpecRule` except that
the noise multiplier applies when `densityNoise > 0` AND
`densityNoiseFreq > 0`.  This is the rule the corrected claim states, for
every configuration. -/
def densityAcceptanceSpecRuleAmended (ops : Ops) (perm : List ℕ) (q : Point3)
    (distFromCenter : ℚ) (fillMode : FillMode) (dp : Params) (draw : ℚ) : Bool :=
  let p1 : ℚ := 1
  let p2 :=
    if dp.densityFalloff > 0 ∧ fillMode = .volume then
      p1 * ops.opow (max 0 (1 - distFromCenter)) dp.densityFalloff
    else p1
  let p3 :=
    if dp.densityNoise > 0 ∧ dp.densityNoiseFreq > 0 then
      let nval := simplex3 perm (q.x * dp.densityNoiseFreq) (q.y * dp.densityNoiseFreq)
        (q.z * dp.densityNoiseFreq)
      p2 * ((1 - dp.densityNoise) + dp.densityNoise * ((nval + 1) / 2))
    else p2
  decide (draw < p3)

/-- The curl field exactly as the specification words it: the discrete curl of
the `fbm3vec` potential with central differences of step `0.001`, each
partial derivative reading the corresponding `fbm3vec` channel (hence the
same per-channel coordinate offsets), combined as
`(∂Nz/∂y − ∂Ny/∂z, ∂Nx/∂z − ∂Nz/∂x, ∂Ny/∂x − ∂Nx/∂y)`.  Used only to
compare against the source-translated `curl3`. -/
def curl3SpecRule (p : List ℕ) (x y z : ℚ) (o : FbmOpts) : Point3 :=
  let eps : ℚ := 0.001
  let chanX := fun (ax ay az : ℚ) => (fbm3vec p ax ay az o).x
  let chanY := fun (ax ay az : ℚ) => (fbm3vec p ax ay az o).y
  let chanZ := fun (ax ay az : ℚ) => (fbm3vec p ax ay az o).z
  let dNzdy := (chanZ x (y + eps) z - chanZ x (y - eps) z) / (2 * eps)
  let dNydz := (chanY x y (z + eps) - chanY x y (z - eps)) / (2 * eps)
  let dNxdz := (chanX x y (z + eps) - chanX x y (z - eps)) / (2 * eps)
  let dNzdx := (chanZ (x + eps) y z - chanZ (x - eps) y z) / (2 * eps)
  let dNydx := (chanY (x + eps) y z - chanY (x - eps) y z) / (2 * eps)
  let dNxdy := (chanX x (y + eps) z - chanX x (y - eps) z) / (2 * eps)
  { x := dNzdy - dNydz, y := dNxdz - dNzdx, z := dNydx - dNxdy }

/-! ## A concrete computable Ops instance for witnesses -/

/-- Rational power agreeing with `Math.pow` on every integer exponent the
witnesses use (`x^0 = 1`, `x^1 = x`, …); non-integer exponents (never
exercised by a witness) evaluate to `0`. -/
def qpow (x e : ℚ) : ℚ :=
  if e.den = 1 then
    if 0 ≤ e.num then x ^ e.num.toNat else (x ^ (-e.num).toNat)⁻¹
  else 0

/-- A concrete `Ops` bundle used to instantiate the witnesses: the
parametric theorems hold for every `Ops`, so any computable choice
demonstrates their hypotheses are satisfiable. -/
def ops0 : Ops where
  sqrt := fun q => q
  cbrt := fun q => q
  sin := fun _ => 0
  cos := fun _ => 1
  atan2 := fun _ _ => 0
  opow := qpow
  pi := 355 / 113

/-! ## Shared helper lemmas -/

theorem noiseDisplace_length (p : List ℕ) (pts : List Point3) (o : DisplaceOpts) :
    (noiseDisplace p pts o).length = pts.length := by
  simp [noiseDisplace]

theorem twist_length (ops : Ops) (pts : List Point3) (amount : ℚ) (axis : Axis) :
    (twist ops pts amount axis).length = pts.length := by
  simp [twist]

theorem taper_length (pts : List Point3) (s e : ℚ) (axis : Axis) :
    (taper pts s e axis).length = pts.length := by
  simp [taper]

theorem bend_length (ops : Ops) (pts : List Point3) (angle : ℚ) (axis : Axis) :
    (bend ops pts angle axis).length = pts.length := by
  unfold bend
  dsimp only
  split
  · rfl
  · simp

theorem wave_length (ops : Ops) (pts : List Point3) (freq amp : ℚ) (axis : Axis) (phase : ℚ) :
    (wave ops pts freq amp axis phase).length = pts.length := by
  simp [wave]

/-! ## Claim theorems -/

/-- C1: for every fixed integer seed and configuration, two independent runs
of the embedded pipeline (generate → deform → project) produce identical
output sequences.  The first conjunct says the output never depends on the
process-wide noise state the run starts from (the pipeline reseeds the
permutation table deterministically before sampling); the second applies
this to two back-to-back runs, the second starting from the noise state the
first left behind. -/
theorem pipeline_two_run_deterministic (ops : Ops) (p : Params) (iFuel : ℕ)
    (st1 st2 : List ℕ) :
    (runPipeline ops p iFuel st2).1 = (runPipeline ops p iFuel st1).1 ∧
    (runPipeline ops p iFuel (runPipeline ops p iFuel st1).2).1 =
      (runPipeline ops p iFuel st1).1 :=
  ⟨rfl, rfl⟩

/-- C6: for every cloud, axis, and bend angle of absolute value below
`0.001`, the bend deformer is the identity on the point list; the guard fires
before any use of the angle-derived radius. -/
theorem bend_near_zero_identity (ops : Ops) (points : List Point3) (angle : ℚ)
    (axis : Axis) (h : |angle| < 0.001) : bend ops points angle axis = points := by
  unfold bend
  dsimp only
  rw [if_pos h]

theorem bend_near_zero_identity_witness :
    |(0 : ℚ)| < 0.001 ∧
    bend ops0 [{ x := 1, y := 2, z := 3 }] 0 Axis.x = [{ x := 1, y := 2, z := 3 }] :=
  ⟨by norm_num, bend_near_zero_identity ops0 _ 0 Axis.x (by norm_num)⟩

/-- C7: `curl3` coincides, for every coordinate and option bundle, with the
discrete curl (central differences, epsilon `0.001`) of the `fbm3vec`
potential, with each partial derivative reading the correspondingly
offset `fbm3vec` channel. -/
theorem curl3_eq_discrete_curl_of_fbm3vec (p : List ℕ) (x y z : ℚ) (o : FbmOpts) :
    curl3 p x y z o = curl3SpecRule p x y z o := rfl

/-- C10: every deformer stage (pre-smoothing and primary displacement are
both `noiseDisplace` instances, then twist, taper, bend, wave), and therefore
the full `applyDeformers` stack, returns exactly as many points as it was
given, for every input and configuration. -/
theorem deformers_preserve_length (ops : Ops) (perm : List ℕ) (pts : List Point3)
    (o : DisplaceOpts) (amount : ℚ) (ax1 : Axis) (s e : ℚ) (ax2 : Axis)
    (angle : ℚ) (ax3 : Axis) (freq amp : ℚ) (ax4 : Axis) (phase : ℚ) (p : Params) :
    (noiseDisplace perm pts o).length = pts.length ∧
    (twist ops pts amount ax1).length = pts.length ∧
    (taper pts s e ax2).length = pts.length ∧
    (bend ops pts angle ax3).length = pts.length ∧
    (wave ops pts freq amp ax4 phase).length = pts.length ∧
    ((applyDeformers ops pts p).1).length = pts.length := by
  refine ⟨noiseDisplace_length .., twist_length .., taper_length .., bend_length ..,
    wave_length .., ?_⟩
  unfold applyDeformers
  dsimp only
  split_ifs <;>
    simp only [noiseDisplace_length, twist_length, taper_length, bend_length, wave_length]

/-- C3: the output of `projectScene` is non-decreasing in `depth`, and the
depth sort is the terminal operation: the output is exactly the stable
ascending-depth sort of everything the function computed before it
(per-point pass, scale/opacity pass, dark-band pass). -/
theorem projectScene_depth_sorted (ops : Ops) (perm : List ℕ) (p : Params)
    (cloud : List Point3) :
    projectScene ops perm p cloud =
      (projectSceneUnsorted ops perm p cloud).mergeSort depthLE ∧
    List.Sorted (fun a b : Prim => a.depth ≤ b.depth) (projectScene ops perm p cloud) := by
  refine ⟨rfl, ?_⟩
  have h : ((projectSceneUnsorted ops perm p cloud).mergeSort depthLE).Pairwise
      (fun a b => depthLE a b) :=
    List.sorted_mergeSort
      (fun a b c hab hbc => by
        simp only [depthLE, decide_eq_true_eq] at *
        exact le_trans hab hbc)
      (fun a b => by
        simp only [depthLE, Bool.or_eq_true, decide_eq_true_eq]
        exact le_total a.depth b.depth)
      (projectSceneUnsorted ops perm p cloud)
  exact h.imp fun hab => by simpa [depthLE] using hab

/-- Inversion of the per-point projection: a surviving primitive carries the
world-position pose index, and in perspective mode its depth clears the near
plane and its screen scale is `fov / (depth + 300)`. -/
theorem projectPoint_some_inv (ops : Ops) (perm : List ℕ) (p : Params) (i : ℕ)
    (pt : Point3) (b : Prim) (h : projectPoint ops perm p i pt = some b) :
    b.depth = (camRotate ops p pt).z ∧
    b.poseIndex = poseIndexAt perm p pt ∧
    (p.projType = ProjType.perspective →
      0.1 < b.depth + 300 ∧ b.perspScale = p.camFOV / (b.depth + 300)) := by
  unfold projectPoint at h
  rcases hpt : p.projType with _ | _ <;> rw [hpt] at h <;> dsimp only at h
  · rcases Option.some.inj h with rfl
    exact ⟨rfl, rfl, fun hc => nomatch hc⟩
  · split at h
    · cases h
    · rcases Option.some.inj h with rfl
      refine ⟨rfl, rfl, fun _ => ⟨?_, rfl⟩⟩
      dsimp only
      linarith [not_le.mp (by assumption : ¬(camRotate ops p pt).z + 300 ≤ 0.1)]

/-- In perspective mode a point whose rotated depth is at or behind the near
plane produces no primitive. -/
theorem projectPoint_behind_none (ops : Ops) (perm : List ℕ) (p : Params) (i : ℕ)
    (pt : Point3) (hproj : p.projType = ProjType.perspective)
    (hz : (camRotate ops p pt).z + 300 ≤ 0.1) :
    projectPoint ops perm p i pt = none := by
  unfold projectPoint
  rw [hproj]
  dsimp only
  rw [if_pos hz]

/-- Decompose membership in the pre-sort output: every primitive is a
whole-batch-annotated version of a per-point primitive, preserving `depth`,
`perspScale` and `poseIndex`, with `opacity` given by the depth-normalised
formula over the batch. -/
theorem mem_projectSceneUnsorted_inv (ops : Ops) (perm : List ℕ) (p : Params)
    (cloud : List Point3) (b : Prim) (hb : b ∈ projectSceneUnsorted ops perm p cloud) :
    ∃ b1 ∈ projectBirds ops perm p cloud,
      b.depth = b1.depth ∧ b.perspScale = b1.perspScale ∧ b.poseIndex = b1.poseIndex ∧
      b.opacity = p.depthOpacity + (1 - p.depthOpacity) *
        ops.opow ((b1.depth - listMinQ ((projectBirds ops perm p cloud).map Prim.depth)) /
            orDefault (listMaxQ ((projectBirds ops perm p cloud).map Prim.depth) -
              listMinQ ((projectBirds ops perm p cloud).map Prim.depth)) 1)
          (orDefault p.depthOpacityCurve 1.0) := by
  unfold projectSceneUnsorted at hb
  dsimp only at hb
  split at hb
  · cases hb
  · unfold darkBandPass at hb
    split at hb <;>
    · rw [List.mem_map] at hb
      obtain ⟨b2, hb2, rfl⟩ := hb
      unfold scaleOpacityPass at hb2
      rw [List.mem_map] at hb2
      obtain ⟨b1, hb1, rfl⟩ := hb2
      refine ⟨b1, hb1, ?_⟩
      first
      | exact ⟨rfl, rfl, rfl, rfl⟩
      | · simp only [darkBandOf]
          split <;> exact ⟨rfl, rfl, rfl, rfl⟩

/-- C4: in perspective projection, a point whose camera-rotated `z` plus the
camera distance 300 is at most `0.1` is silently dropped; every emitted
primitive has `depth + 300 > 0.1` and carries screen scale
`fov / (depth + 300)`. -/
theorem perspective_culling (ops : Ops) (perm : List ℕ) (p : Params)
    (cloud : List Point3) (hproj : p.projType = ProjType.perspective) :
    (∀ i pt, (camRotate ops p pt).z + 300 ≤ 0.1 →
      projectPoint ops perm p i pt = none) ∧
    ∀ b ∈ projectScene ops perm p cloud,
      0.1 < b.depth + 300 ∧ b.perspScale = p.camFOV / (b.depth + 300) := by
  refine ⟨fun i pt hz => projectPoint_behind_none ops perm p i pt hproj hz, fun b hb => ?_⟩
  rw [projectScene, List.mem_mergeSort] at hb
  obtain ⟨b1, hb1, hd, hs, -, -⟩ := mem_projectSceneUnsorted_inv ops perm p cloud b hb
  unfold projectBirds at hb1
  rw [List.mem_filterMap] at hb1
  obtain ⟨⟨i, pt⟩, -, hsome⟩ := hb1
  obtain ⟨-, -, hpersp⟩ := projectPoint_some_inv ops perm p i pt b1 hsome
  obtain ⟨h1, h2⟩ := hpersp hproj
  rw [hd, hs]
  exact ⟨h1, h2⟩

/-- C8: with pose variation enabled and a positive pose-noise frequency, the
pose index of a surviving point is the fixed {0.35, 0.55, 0.75} thresholding
of the [0,1]-remapped `simplex3` value at the point's world (pre-rotation)
position; hence two projections of the same point under configurations that
may differ arbitrarily in their camera rotation (or any other field outside
the two pose parameters) assign it the same pose index. -/
theorem poseIndex_camera_noninterference (ops : Ops) (perm : List ℕ)
    (p1 p2 : Params) (i j : ℕ) (pt : Point3) (b1 b2 : Prim)
    (hpose : p1.poseVariation = true) (hfreq : 0 < p1.poseNoiseFreq)
    (hv : p2.poseVariation = p1.poseVariation) (hf : p2.poseNoiseFreq = p1.poseNoiseFreq)
    (h1 : projectPoint ops perm p1 i pt = some b1)
    (h2 : projectPoint ops perm p2 j pt = some b2) :
    b1.poseIndex = b2.poseIndex ∧
    b1.poseIndex =
      (if (simplex3 perm (pt.x * p1.poseNoiseFreq) (pt.y * p1.poseNoiseFreq)
            (pt.z * p1.poseNoiseFreq) + 1) * 0.5 < 0.35 then 0
       else if (simplex3 perm (pt.x * p1.poseNoiseFreq) (pt.y * p1.poseNoiseFreq)
            (pt.z * p1.poseNoiseFreq) + 1) * 0.5 < 0.55 then 1
       else if (simplex3 perm (pt.x * p1.poseNoiseFreq) (pt.y * p1.poseNoiseFreq)
            (pt.z * p1.poseNoiseFreq) + 1) * 0.5 < 0.75 then 2
       else 3) := by
  have e1 := (projectPoint_some_inv ops perm p1 i pt b1 h1).2.1
  have e2 := (projectPoint_some_inv ops perm p2 j pt b2 h2).2.1
  have hsame : poseIndexAt perm p2 pt = poseIndexAt perm p1 pt := by
    unfold poseIndexAt
    rw [hv, hf]
  have hthresh : poseIndexAt perm p1 pt =
      (if (simplex3 perm (pt.x * p1.poseNoiseFreq) (pt.y * p1.poseNoiseFreq)
            (pt.z * p1.poseNoiseFreq) + 1) * 0.5 < 0.35 then 0
       else if (simplex3 perm (pt.x * p1.poseNoiseFreq) (pt.y * p1.poseNoiseFreq)
            (pt.z * p1.poseNoiseFreq) + 1) * 0.5 < 0.55 then 1
       else if (simplex3 perm (pt.x * p1.poseNoiseFreq) (pt.y * p1.poseNoiseFreq)
            (pt.z * p1.poseNoiseFreq) + 1) * 0.5 < 0.75 then 2
       else 3) := by
    unfold poseIndexAt
    rw [if_pos ⟨hpose, hfreq⟩]
  exact ⟨by rw [e1, e2, hsame], by rw [e1, hthresh]⟩

/-- The `orDefault` guard is the identity away from zero. -/
theorem orDefault_of_ne (v d : ℚ) (h : v ≠ 0) : orDefault v d = v := by
  simp [orDefault, h]

/-- C9 (amended): for every nonzero `depthOpacityCurve`, every primitive's
opacity is `depthOpacity + (1 − depthOpacity) · normDepth^depthOpacityCurve`,
where `normDepth` normalises the primitive's depth across the batch with a
guarded zero range.  (At `depthOpacityCurve = 0` the code substitutes the
exponent 1 via its `|| 1.0` fallback, so the claim's formula fails there;
see the counterexample.) -/
theorem opacity_depth_formula (ops : Ops) (perm : List ℕ) (p : Params)
    (cloud : List Point3) (b : Prim) (hb : b ∈ projectScene ops perm p cloud)
    (hcurve : p.depthOpacityCurve ≠ 0) :
    b.opacity = p.depthOpacity + (1 - p.depthOpacity) *
      ops.opow ((b.depth - listMinQ ((projectBirds ops perm p cloud).map Prim.depth)) /
        orDefault (listMaxQ ((projectBirds ops perm p cloud).map Prim.depth) -
          listMinQ ((projectBirds ops perm p cloud).map Prim.depth)) 1)
        p.depthOpacityCurve := by
  rw [projectScene, List.mem_mergeSort] at hb
  obtain ⟨b1, -, hd, -, -, hop⟩ := mem_projectSceneUnsorted_inv ops perm p cloud b hb
  rw [hop, hd, orDefault_of_ne _ _ hcurve]

/-- Xor of two 32-bit patterns is a 32-bit pattern. -/
theorem natXor_lt_two32 {a b : ℕ} (ha : a < two32) (hb : b < two32) :
    Nat.xor a b < two32 := by
  have h32 : two32 = 2 ^ 32 := by norm_num [two32]
  rw [h32] at ha hb ⊢
  exact Nat.xor_lt_two_pow ha hb

/-- Every draw of the mulberry32 PRNG lies in `[0, 1)`. -/
theorem m32_val_bounds (st : ℕ) : 0 ≤ (m32 st).1 ∧ (m32 st).1 < 1 := by
  unfold m32
  dsimp only
  constructor
  · positivity
  · rw [div_lt_one (by norm_num [two32])]
    have h1 : ((st + 0x6D2B79F5) % two32) < two32 :=
      Nat.mod_lt _ (by norm_num [two32])
    set a1 := (st + 0x6D2B79F5) % two32 with ha1
    have ht1 : (Nat.xor a1 (a1 >>> 15) * Nat.lor 1 a1) % two32 < two32 :=
      Nat.mod_lt _ (by norm_num [two32])
    set t1 := (Nat.xor a1 (a1 >>> 15) * Nat.lor 1 a1) % two32 with het1
    have ht2 : Nat.xor ((t1 + (Nat.xor t1 (t1 >>> 7) * Nat.lor 61 t1) % two32) % two32) t1 < two32 :=
      natXor_lt_two32 (Nat.mod_lt _ (by norm_num [two32])) ht1
    set t2 := Nat.xor ((t1 + (Nat.xor t1 (t1 >>> 7) * Nat.lor 61 t1) % two32) % two32) t1 with het2
    have hsh : t2 >>> 14 < two32 :=
      lt_of_le_of_lt (by rw [Nat.shiftRight_eq_div_pow]; exact Nat.div_le_self _ _) ht2
    have hout : Nat.xor t2 (t2 >>> 14) < two32 := natXor_lt_two32 ht2 hsh
    exact_mod_cast hout

/-- C5 (amended): for every candidate point, every configuration, every fill
mode, every non-negative normalized radial distance (the sampler only ever
produces non-negative ones) and every PRNG state, the acceptance decision of
`densityAcceptance` equals the amended specification rule — probability 1,
times the radial-falloff term when `densityFalloff > 0` in volume fill,
times the noise multiplier when `densityNoise > 0` and
`densityNoiseFreq > 0`, accepting iff the next uniform draw is below the
product.  The guard-active configurations (`densityNoise > 0`,
`densityNoiseFreq ≤ 0`) are covered: there both sides skip the noise term. -/
theorem densityAcceptance_matches_amended_spec (ops : Ops) (perm : List ℕ)
    (q : Point3) (dist : ℚ) (fm : FillMode) (dp : Params) (st : ℕ)
    (hdist : 0 ≤ dist) :
    (densityAcceptance ops perm q dist fm dp st).1 =
      densityAcceptanceSpecRuleAmended ops perm q dist fm dp (m32 st).1 := by
  unfold densityAcceptance densityAcceptanceSpecRuleAmended densityProb
  by_cases hE : dp.densityFalloff ≤ 0 ∧ dp.densityNoise ≤ 0
  · rw [if_pos hE]
    have hF : ¬(dp.densityFalloff > 0 ∧ fm = FillMode.volume) := fun hc =>
      absurd hc.1 (not_lt.mpr hE.1)
    have hN : ¬(dp.densityNoise > 0 ∧ dp.densityNoiseFreq > 0) := fun hc =>
      absurd hc.1 (not_lt.mpr hE.2)
    simp only [if_neg hF, if_neg hN]
    exact (decide_eq_true ((m32_val_bounds st).2)).symm
  · rw [if_neg hE]
    rcases hm : m32 st with ⟨r, st1⟩
    dsimp only
    refine congrArg (fun z => decide (r < z)) ?_
    have hFiff : (fm = FillMode.volume ∧ dp.densityFalloff > 0 ∧ dist ≥ 0) ↔
        (dp.densityFalloff > 0 ∧ fm = FillMode.volume) :=
      ⟨fun h => ⟨h.2.1, h.1⟩, fun h => ⟨h.2, h.1, hdist⟩⟩
    simp only [hFiff]
    split_ifs <;> ring

/-- Loop invariant of the ellipsoid attempt loop: starting below the target
count, the loop keeps at most `count` points, increments the attempt counter
once per unit of fuel consumed, and consumes all fuel whenever it undershoots
the target. -/
theorem generateEllipsoidAux_bounds (ops : Ops) (perm : List ℕ) (count : ℕ)
    (rx ry rz : ℚ) (fm : FillMode) (dp : Params) (iFuel : ℕ) (fuel : ℕ) :
    ∀ acc att st res, acc.length ≤ count →
      generateEllipsoidAux ops perm count rx ry rz fm dp iFuel fuel acc att st = some res →
      res.1.length ≤ count ∧ res.2 ≤ att + fuel ∧
        (res.1.length < count → res.2 = att + fuel) := by
  induction fuel with
  | zero =>
    intro acc att st res hacc h
    unfold generateEllipsoidAux at h
    rcases Option.some.inj h with rfl
    exact ⟨by simpa using hacc, Nat.le_refl _, fun _ => rfl⟩
  | succ n ih =>
    intro acc att st res hacc h
    unfold generateEllipsoidAux at h
    split at h
    · rcases he : ellipsoidTrial ops perm rx ry rz fm dp iFuel st with _ | ⟨accepted, st1⟩ <;>
        rw [he] at h
      · cases h
      · have hlt : acc.length < count := by assumption
        have hacc1 : (match accepted with | some q => q :: acc | none => acc).length ≤ count := by
          rcases accepted with _ | q
          · exact hacc
          · simpa using hlt
        obtain ⟨h1, h2, h3⟩ := ih _ _ _ _ hacc1 h
        refine ⟨h1, ?_, fun hl => ?_⟩
        · omega
        · have := h3 hl
          omega
    · rcases Option.some.inj h with rfl
      have hge : ¬acc.length < count := by assumption
      refine ⟨by simpa using hacc, by omega, fun hl => ?_⟩
      exact absurd (by simpa using hl) hge

/-- `none` from the ellipsoid attempt loop originates only in the inner
Marsaglia pair search exhausting its fuel: the attempt-capped outer loop
itself always returns. -/
theorem generateEllipsoidAux_none_inv (ops : Ops) (perm : List ℕ) (count : ℕ)
    (rx ry rz : ℚ) (fm : FillMode) (dp : Params) (iFuel : ℕ) (fuel : ℕ) :
    ∀ acc att st,
      generateEllipsoidAux ops perm count rx ry rz fm dp iFuel fuel acc att st = none →
      ∃ st2, marsaglia st2 iFuel = none := by
  induction fuel with
  | zero =>
    intro acc att st h
    unfold generateEllipsoidAux at h
    cases h
  | succ n ih =>
    intro acc att st h
    unfold generateEllipsoidAux at h
    split at h
    · rcases he : ellipsoidTrial ops perm rx ry rz fm dp iFuel st with _ | ⟨accepted, st1⟩ <;>
        rw [he] at h
      · unfold ellipsoidTrial at he
        rcases hm : marsaglia st iFuel with _ | ⟨u, v, s, st2⟩ <;> rw [hm] at he
        · exact ⟨st, hm⟩
        · cases he
      · exact ih _ _ _ h
    · cases h

/-- Loop invariant of the torus attempt loop. -/
theorem generateTorusAux_bounds (ops : Ops) (perm : List ℕ) (count : ℕ)
    (majorR minorR : ℚ) (fm : FillMode) (dp : Params) (fuel : ℕ) :
    ∀ acc att st, acc.length ≤ count →
      (generateTorusAux ops perm count majorR minorR fm dp fuel acc att st).1.length ≤ count ∧
      (generateTorusAux ops perm count majorR minorR fm dp fuel acc att st).2 ≤ att + fuel ∧
      ((generateTorusAux ops perm count majorR minorR fm dp fuel acc att st).1.length < count →
        (generateTorusAux ops perm count majorR minorR fm dp fuel acc att st).2 = att + fuel) := by
  induction fuel with
  | zero =>
    intro acc att st hacc
    unfold generateTorusAux
    exact ⟨by simpa using hacc, Nat.le_refl _, fun _ => rfl⟩
  | succ n ih =>
    intro acc att st hacc
    unfold generateTorusAux
    dsimp only
    split
    · rename_i hlt
      split_ifs <;>
        refine (fun H => ⟨H.1, by omega, fun hl => by have := H.2.2 hl; omega⟩)
          (ih _ (att + 1) _ ?_) <;>
        (try simp only [List.length_cons]) <;> omega
    · rename_i hge
      refine ⟨by simpa using hacc, by omega, fun hl => ?_⟩
      exact absurd (by simpa using hl) hge

/-- Loop invariant of the swept-tube attempt loop. -/
theorem generateSweptAux_bounds (ops : Ops) (perm : List ℕ) (count : ℕ)
    (cR : ℚ) (dp : Params) (fuel : ℕ) :
    ∀ acc att st, acc.length ≤ count →
      (generateSweptAux ops perm count cR dp fuel acc att st).1.length ≤ count ∧
      (generateSweptAux ops perm count cR dp fuel acc att st).2 ≤ att + fuel ∧
      ((generateSweptAux ops perm count cR dp fuel acc att st).1.length < count →
        (generateSweptAux ops perm count cR dp fuel acc att st).2 = att + fuel) := by
  induction fuel with
  | zero =>
    intro acc att st hacc
    unfold generateSweptAux
    exact ⟨by simpa using hacc, Nat.le_refl _, fun _ => rfl⟩
  | succ n ih =>
    intro acc att st hacc
    unfold generateSweptAux
    dsimp only
    split
    · rename_i hlt
      split_ifs <;>
        refine (fun H => ⟨H.1, by omega, fun hl => by have := H.2.2 hl; omega⟩)
          (ih _ (att + 1) _ ?_) <;>
        (try simp only [List.length_cons]) <;> omega
    · rename_i hge
      refine ⟨by simpa using hacc, by omega, fun hl => ?_⟩
      exact absurd (by simpa using hl) hge

/-- C2: every shape sampler performs at most `20 × count` acceptance trials
and returns at most `count` points; when it returns fewer than `count`
points, the full `20 × count` attempt budget was exhausted — the loop ends
instead of spinning or raising.  For the ellipsoid, whose inner Marsaglia
`do…while` the source leaves unbounded and the embedding models with fuel,
the bounds hold whenever the sampler returns, and the second conjunct pins
the only possible non-return down to that inner pair search: the
attempt-capped outer loop itself always terminates.  Torus and swept tube
have no inner loop and their bounds are unconditional. -/
theorem sampler_attempt_bounds (ops : Ops) (perm : List ℕ) (count : ℕ)
    (rx ry rz majorR minorR cR : ℚ) (fm : FillMode) (sd : ℤ) (dp : Params) (iFuel : ℕ) :
    (∀ res, generateEllipsoid ops perm count rx ry rz fm sd dp iFuel = some res →
      res.1.length ≤ count ∧ res.2 ≤ count * 20 ∧
        (res.1.length < count → res.2 = count * 20)) ∧
    (generateEllipsoid ops perm count rx ry rz fm sd dp iFuel = none →
      ∃ st2, marsaglia st2 iFuel = none) ∧
    ((generateTorus ops perm count majorR minorR fm sd dp).1.length ≤ count ∧
      (generateTorus ops perm count majorR minorR fm sd dp).2 ≤ count * 20 ∧
      ((generateTorus ops perm count majorR minorR fm sd dp).1.length < count →
        (generateTorus ops perm count majorR minorR fm sd dp).2 = count * 20)) ∧
    ((generateSweptCurve ops perm count cR sd dp).1.length ≤ count ∧
      (generateSweptCurve ops perm count cR sd dp).2 ≤ count * 20 ∧
      ((generateSweptCurve ops perm count cR sd dp).1.length < count →
        (generateSweptCurve ops perm count cR sd dp).2 = count * 20)) := by
  refine ⟨fun res h => ?_, fun h => ?_, ?_, ?_⟩
  · have := generateEllipsoidAux_bounds ops perm count rx ry rz fm dp iFuel (count * 20)
      [] 0 (m32init sd) res (by simp) h
    simpa using this
  · exact generateEllipsoidAux_none_inv ops perm count rx ry rz fm dp iFuel (count * 20)
      [] 0 (m32init sd) h
  · have := generateTorusAux_bounds ops perm count majorR minorR fm dp (count * 20)
      [] 0 (m32init sd) (by simp)
    simpa [generateTorus] using this
  · have := generateSweptAux_bounds ops perm count cR dp (count * 20)
      [] 0 (m32init sd) (by simp)
    simpa [generateSweptCurve] using this

/-! ## Concrete inputs for witnesses and counterexamples -/

set_option maxRecDepth 40000

/-- Density parameters that disable both density terms (trivial acceptance). -/
def dpW2 : Params := { densityFalloff := 0, densityNoise := 0 }

/-- The ellipsoid sampler run the C2 witness evaluates. -/
def ellW : Option (List Point3 × ℕ) :=
  generateEllipsoid ops0 [] 1 1 1 1 FillMode.surface 0 dpW2 5

theorem sampler_attempt_bounds_witness :
    generateEllipsoid ops0 [] 1 1 1 1 FillMode.surface 0 dpW2 5 = some (ellW.getD ([], 0)) ∧
    ((ellW.getD ([], 0)).1.length ≤ 1 ∧ (ellW.getD ([], 0)).2 ≤ 1 * 20 ∧
      ((ellW.getD ([], 0)).1.length < 1 → (ellW.getD ([], 0)).2 = 1 * 20)) :=
  ⟨by with_unfolding_all rfl,
   (sampler_attempt_bounds ops0 [] 1 1 1 1 1 1 1 FillMode.surface 0 dpW2 5).1
     (ellW.getD ([], 0)) (by with_unfolding_all rfl)⟩

/-- A perspective-mode configuration. -/
def pC4 : Params := { projType := ProjType.perspective }

/-- A point exactly on the camera plane (`z = −300`), behind the near plane. -/
def ptBehind : Point3 := { x := 0, y := 0, z := -300 }

theorem perspective_culling_witness :
    pC4.projType = ProjType.perspective ∧
    (camRotate ops0 pC4 ptBehind).z + 300 ≤ 0.1 ∧
    projectPoint ops0 [] pC4 0 ptBehind = none :=
  ⟨rfl, by with_unfolding_all decide,
   (perspective_culling ops0 [] pC4 [] rfl).1 0 ptBehind (by with_unfolding_all decide)⟩

/-- The density parameters of the C5 counterexample: positive noise
amplitude, zero noise frequency. -/
def dpC5 : Params :=
  { densityFalloff := 0
    densityNoise := 1/2
    densityNoiseFreq := 0 }

/-- C5 counterexample: with `densityNoise = 1/2` but `densityNoiseFreq = 0`,
the code skips the noise term and accepts the candidate (the draw from PRNG
state 4 is ≈ 0.9236 < 1), while the claim's rule still multiplies in the
noise term — `simplex3` at the origin is 0, giving `p = 3/4` — and rejects
the same draw. -/
theorem densityAcceptance_spec_counterexample :
    (densityAcceptance ops0 (permOfSeed 0) { x := 0, y := 0, z := 0 } 0
      FillMode.volume dpC5 4).1 = true ∧
    densityAcceptanceSpecRule ops0 (permOfSeed 0) { x := 0, y := 0, z := 0 } 0
      FillMode.volume dpC5 (m32 4).1 = false := by
  constructor <;> with_unfolding_all decide

theorem densityAcceptance_matches_amended_spec_witness :
    (0 : ℚ) ≤ 0 ∧
    (densityAcceptance ops0 (permOfSeed 0) { x := 0, y := 0, z := 0 } 0
        FillMode.volume dpC5 4).1 =
      densityAcceptanceSpecRuleAmended ops0 (permOfSeed 0) { x := 0, y := 0, z := 0 } 0
        FillMode.volume dpC5 (m32 4).1 :=
  ⟨le_refl 0,
   densityAcceptance_matches_amended_spec ops0 (permOfSeed 0) { x := 0, y := 0, z := 0 } 0
     FillMode.volume dpC5 4 (le_refl 0)⟩

/-- A configuration with pose variation on and minimal other noise paths. -/
def pC8a : Params :=
  { poseVariation := true
    poseNoiseFreq := 1/100
    orientToFlow := false
    orientJitter := 0
    projType := ProjType.ortho
    width := 0
    height := 0 }

/-- The same configuration under a different camera rotation. -/
def pC8b : Params := { pC8a with camRotX := 1, camRotY := 2 }

/-- The world point of the C8 witness. -/
def ptC8 : Point3 := { x := 0, y := 0, z := 0 }

/-- The primitive both C8 projections emit. -/
def bC8 : Prim := { sx := 0, sy := 0, depth := 0, angle := 0, perspScale := 1, poseIndex := 1 }

theorem poseIndex_camera_noninterference_witness :
    pC8a.poseVariation = true ∧ 0 < pC8a.poseNoiseFreq ∧ pC8b.camRotX ≠ pC8a.camRotX ∧
    projectPoint ops0 [] pC8a 0 ptC8 = some bC8 ∧
    projectPoint ops0 [] pC8b 0 ptC8 = some bC8 ∧
    bC8.poseIndex = bC8.poseIndex := by
  have hA : projectPoint ops0 [] pC8a 0 ptC8 = some bC8 := by with_unfolding_all decide
  have hB : projectPoint ops0 [] pC8b 0 ptC8 = some bC8 := by with_unfolding_all decide
  exact ⟨rfl, by with_unfolding_all decide, by with_unfolding_all decide, hA, hB,
    (poseIndex_camera_noninterference ops0 [] pC8a pC8b 0 0 ptC8 bC8 bC8 rfl
      (by with_unfolding_all decide) rfl rfl hA hB).1⟩

/-- The C9 witness configuration (`depthOpacityCurve = 2`). -/
def pC9W : Params :=
  { depthOpacityCurve := 2
    orientToFlow := false
    orientJitter := 0
    poseVariation := false
    darkBandEnabled := false
    projType := ProjType.ortho
    width := 0
    height := 0 }

/-- The C9 counterexample configuration (`depthOpacityCurve = 0`). -/
def pC9X : Params := { pC9W with depthOpacityCurve := 0 }

/-- The input point of the C9 runs. -/
def ptC9 : Point3 := { x := 1, y := 2, z := 3 }

/-- The primitive the C9 witness run emits. -/
def bC9 : Prim :=
  { sx := 5/2
    sy := 5
    depth := 3
    angle := 0
    perspScale := 1
    poseIndex := 0
    scale := 5/8
    opacity := 3/10
    localDensity := 0 }

theorem opacity_depth_formula_witness :
    bC9 ∈ projectScene ops0 [] pC9W [ptC9] ∧ pC9W.depthOpacityCurve ≠ 0 ∧
    bC9.opacity = pC9W.depthOpacity + (1 - pC9W.depthOpacity) *
      ops0.opow ((bC9.depth - listMinQ ((projectBirds ops0 [] pC9W [ptC9]).map Prim.depth)) /
        orDefault (listMaxQ ((projectBirds ops0 [] pC9W [ptC9]).map Prim.depth) -
          listMinQ ((projectBirds ops0 [] pC9W [ptC9]).map Prim.depth)) 1)
        pC9W.depthOpacityCurve := by
  have hmem : bC9 ∈ projectScene ops0 [] pC9W [ptC9] := by with_unfolding_all decide
  have hc : pC9W.depthOpacityCurve ≠ 0 := by with_unfolding_all decide
  exact ⟨hmem, hc, opacity_depth_formula ops0 [] pC9W [ptC9] bC9 hmem hc⟩

/-- C9 counterexample: at `depthOpacityCurve = 0` — a non-negative value the
claim quantifies over — the single emitted primitive has opacity `3/10`
(the code's `|| 1.0` fallback replaces the exponent 0 by 1 and `normDepth`
is 0), while the claim's formula `depthOpacity + (1−depthOpacity)·normDepth^0`
evaluates to 1. -/
theorem opacity_depth_formula_counterexample :
    pC9X.depthOpacityCurve = 0 ∧
    (projectScene ops0 [] pC9X [ptC9]).map Prim.opacity = [3/10] ∧
    pC9X.depthOpacity + (1 - pC9X.depthOpacity) *
      ops0.opow ((3 - listMinQ ((projectBirds ops0 [] pC9X [ptC9]).map Prim.depth)) /
        orDefault (listMaxQ ((projectBirds ops0 [] pC9X [ptC9]).map Prim.depth) -
          listMinQ ((projectBirds ops0 [] pC9X [ptC9]).map Prim.depth)) 1)
        pC9X.depthOpacityCurve = 1 ∧
    ((3 : ℚ)/10) ≠ 1 := by
  refine ⟨rfl, ?_, ?_, by norm_num⟩ <;> with_unfolding_all decide

end Murmuration
